import Mathlib

/-!
# Verification of the Smart Element Resolution Engine

Shallow embedding of the IFA framework's element-resolution core:
`SmartTextLocator` (strategy set, orchestrator, text normalizer, similarity
scorer, role-syntax parser) and `SmartPage` (retry/wait controller, action
executor).  JavaScript strings are modelled as Lean `String`s (character
classes such as `\s` and `toLowerCase` restricted to ASCII), JS numbers as
`ℚ`, the live document as a list of element records, and Playwright's
`getByRole` accessible-name query (an external collaborator, not repository
code) as an oracle carried by the page model.
-/

namespace IFA

/-! ## JS string primitives -/

/-- ASCII model of the JS `\s` class / `trim` whitespace set
(space, tab, LF, CR, VT, FF). -/
def jsIsSpace (c : Char) : Bool :=
  decide (c.toNat = 32 ∨ c.toNat = 9 ∨ c.toNat = 10 ∨ c.toNat = 13 ∨
    c.toNat = 11 ∨ c.toNat = 12)

/-- `sub` is a prefix of `l` (char lists, structural). -/
def isPrefixL : List Char → List Char → Bool
  | [], _ => true
  | _ :: _, [] => false
  | a :: as, b :: bs => a == b && isPrefixL as bs

/-- `sub` occurs as a contiguous substring of the second list
(JS `String.prototype.includes`). -/
def isInfixL (sub : List Char) : List Char → Bool
  | [] => sub.isEmpty
  | c :: rest => isPrefixL sub (c :: rest) || isInfixL sub rest

/-- JS `s.includes(sub)`. -/
def strContains (s sub : String) : Bool := isInfixL sub.data s.data

/-- JS `s.startsWith(pre)`. -/
def strStarts (s pre : String) : Bool := isPrefixL pre.data s.data

/-- JS `s.endsWith(suf)`. -/
def strEnds (s suf : String) : Bool := isPrefixL suf.data.reverse s.data.reverse

/-- JS `s.split(" ")` on char lists: split at every single space,
keeping empty pieces (`"".split(" ") == [""]`). -/
def splitOnSpace : List Char → List (List Char)
  | [] => [[]]
  | c :: cs =>
    match splitOnSpace cs with
    | [] => [[]]
    | w :: ws => if c = ' ' then [] :: w :: ws else (c :: w) :: ws

/-- JS `s.split(" ")`. -/
def jsSplitSpace (s : String) : List String :=
  (splitOnSpace s.data).map String.mk

/-- Drop leading JS whitespace (the `trimStart` half of `trim`). -/
def trimLeft (l : List Char) : List Char := l.dropWhile jsIsSpace

/-- Drop trailing JS whitespace (the `trimEnd` half of `trim`). -/
def trimRight (l : List Char) : List Char :=
  (l.reverse.dropWhile jsIsSpace).reverse

/-- JS `s.trim()` (ASCII whitespace model). -/
def jsTrim (s : String) : String := String.mk (trimRight (trimLeft s.data))

/-- `replace(/\s+/g, " ")`: every maximal run of whitespace becomes a
single space. -/
def collapseWs : List Char → List Char
  | [] => []
  | c :: cs =>
    if jsIsSpace c then ' ' :: collapseWs (cs.dropWhile jsIsSpace)
    else c :: collapseWs cs
termination_by l => l.length
decreasing_by
  · simp only [List.length_cons]
    exact Nat.lt_succ_of_le (List.dropWhile_sublist _).length_le
  · simp

/-- `text.trim().replace(/\s+/g, " ")` as used by `normalizeText`. -/
def jsTrimCollapse (s : String) : String :=
  String.mk (collapseWs (trimRight (trimLeft s.data)))

/-- ASCII model of JS `toLowerCase` on one character. -/
def jsCharLower (c : Char) : Char :=
  if 65 ≤ c.toNat ∧ c.toNat ≤ 90 then Char.ofNat (c.toNat + 32) else c

/-- ASCII model of JS `s.toLowerCase()`. -/
def jsToLower (s : String) : String := String.mk (s.data.map jsCharLower)

/-- JS `a || b` on strings (`""` is falsy). -/
def jsOrS (a b : String) : String := if a = "" then b else a

/-! ## Options (`SmartLocatorOptions` and the constructor defaults) -/

/-- Caller-supplied options record; every field optional, as in the
`SmartLocatorOptions` interface extended with the fields the locator
actually reads (`threshold`, `ignoreCase`, `trimWhitespace`, `languages`). -/
structure SmartLocatorOptions where
  threshold : Option ℚ := none
  timeout : Option ℚ := none
  ignoreCase : Option Bool := none
  trimWhitespace : Option Bool := none
  languages : Option (List String) := none
  maxRetries : Option ℕ := none

/-- Options after the `SmartTextLocator` constructor spread
`{threshold: 0.3, timeout: 30000, ignoreCase: true, trimWhitespace: true,
languages: [...], maxRetries: 3, ...options}`. -/
structure LocOpts where
  threshold : ℚ
  timeout : ℚ
  ignoreCase : Bool
  trimWhitespace : Bool
  languages : List String
  maxRetries : ℕ

/-- The constructor's defaults-then-spread. -/
def resolveOptions (o : SmartLocatorOptions) : LocOpts where
  threshold := o.threshold.getD (3/10)
  timeout := o.timeout.getD 30000
  ignoreCase := o.ignoreCase.getD true
  trimWhitespace := o.trimWhitespace.getD true
  languages := o.languages.getD ["en", "es", "fr"]
  maxRetries := o.maxRetries.getD 3

/-! ## Text normalizer -/

/-- `SmartTextLocator.normalizeText`: falsy guard, optional
trim-and-collapse, optional lower-casing, in that order. -/
def normalizeText (opts : LocOpts) (text : String) : String :=
  if text = "" then ""
  else
    let n1 := if opts.trimWhitespace then jsTrimCollapse text else text
    if opts.ignoreCase then jsToLower n1 else n1

/-- `normalizeText` at the JS boundary where the argument may be
`null`/`undefined` (the `!text` guard). -/
def normalizeTextN (opts : LocOpts) (text : Option String) : String :=
  match text with
  | none => ""
  | some t => normalizeText opts t

/-! ## Similarity scorer -/

/-- `levenshteinDistance`'s recurrence: the classic DP
(`matrix[i][j] = matrix[i-1][j-1]` on equal chars, otherwise
`1 + min(diagonal, left, up)`), expressed recursively. -/
def levRec : List Char → List Char → ℕ
  | [], ys => ys.length
  | x :: xs, [] => (x :: xs).length
  | x :: xs, y :: ys =>
    if x = y then levRec xs ys
    else 1 + min (levRec xs ys) (min (levRec (x :: xs) ys) (levRec xs (y :: ys)))
termination_by a b => a.length + b.length

/-- `SmartTextLocator.levenshteinDistance`. -/
def levenshteinDistance (str1 str2 : String) : ℕ := levRec str1.data str2.data

/-- `SmartTextLocator.calculatePartialMatchConfidence`. -/
def calculatePartialMatchConfidence (search target : String) : ℚ :=
  if search = target then 1
  else if strStarts target search then 9/10
  else if strEnds target search then 8/10
  else if strContains target search then 7/10
  else 1 - (levenshteinDistance search target : ℚ) /
    (max search.length target.length : ℕ)

/-- `SmartTextLocator.calculateTextSimilarity`. -/
def calculateTextSimilarity (opts : LocOpts) (search target : String) : ℚ :=
  let searchNorm := normalizeText opts search
  let targetNorm := normalizeText opts target
  if searchNorm = targetNorm then 1
  else if strContains targetNorm searchNorm then 9/10
  else
    let searchWords := jsSplitSpace searchNorm
    let targetWords := jsSplitSpace targetNorm
    let commonWords := searchWords.filter
      (fun word => targetWords.any (fun targetWord => strContains targetWord word))
    let wordSimilarity : ℚ := (commonWords.length : ℚ) / (searchWords.length : ℚ)
    let charSimilarity : ℚ :=
      1 - (levRec searchNorm.data targetNorm.data : ℚ) /
        (max searchNorm.length targetNorm.length : ℕ)
    max (wordSimilarity * (7/10)) (charSimilarity * (6/10))

/-- `SmartTextLocator.fuzzyContains`: at least 70% of the search words of
length `> 2` occur inside some target word. -/
def fuzzyContains (target search : String) : Bool :=
  let searchWords := (jsSplitSpace search).filter (fun w => w.length > 2)
  let targetWords := jsSplitSpace target
  if searchWords.length = 0 then false
  else
    let matchedWords := searchWords.filter
      (fun searchWord => targetWords.any (fun targetWord => strContains targetWord searchWord))
    decide ((matchedWords.length : ℚ) / (searchWords.length : ℚ) ≥ 7/10)

/-- `SmartTextLocator.matchesDescription`. -/
def matchesDescription (description target : String) : Bool :=
  target == description || strContains target description ||
  strContains description target || fuzzyContains target description

/-! ## Role syntax parser -/

/-- `{role, description}` parsed from the `role[description]` micro-syntax. -/
structure RoleQuery where
  role : String
  description : String
deriving DecidableEq, Repr

/-- JS `\w` (ASCII word character). -/
def isWordChar (c : Char) : Bool := c.isAlphanum || c = '_'

/-- `SmartTextLocator.parseAriaRoleSyntax`: the anchored regex
`^(\w+)\[([^\]]+)\]$` (the opening bracket of a match is necessarily the
first `[` of the string, since `\w` excludes `[`), description trimmed. -/
def parseAriaRoleSyntax (searchText : String) : Option RoleQuery :=
  let cs := searchText.data
  let pre := cs.takeWhile (fun c => c != '[')
  let rest := cs.dropWhile (fun c => c != '[')
  if pre ≠ [] ∧ pre.all isWordChar then
    match rest with
    | '[' :: tl =>
      let inner := tl.takeWhile (fun c => c != ']')
      if inner ≠ [] ∧ tl.dropWhile (fun c => c != ']') = [']'] then
        some { role := String.mk pre, description := jsTrim (String.mk inner) }
      else none
    | _ => none
  else none

/-! ## Document model

The live document is a list of element records in document order.  Each
record carries the tag name, attributes, and the three text sources read by
`getElementText` (`textContent || innerText || inputValue`). -/

structure Elem where
  tag : String
  attrs : List (String × String) := []
  textContent : String := ""
  innerText : String := ""
  inputValue : String := ""
deriving DecidableEq, Repr

/-- `element.getAttribute(name)`. -/
def getAttr (e : Elem) (name : String) : Option String := e.attrs.lookup name

/-- The CSS selector forms the locator passes to `page.$$` / `page.$`
(tag, `tag[attr="v"]`, `tag[attr]`, `tag:not([attr])`, `[attr="v"]`,
`[attr]`, `*`, and the comma of two selectors). -/
inductive Sel where
  | all : Sel
  | tag (t : String) : Sel
  | tagAttrEq (t a v : String) : Sel
  | tagAttrPresent (t a : String) : Sel
  | tagAttrAbsent (t a : String) : Sel
  | attrEq (a v : String) : Sel
  | attrPresent (a : String) : Sel
  | comma (s₁ s₂ : Sel) : Sel

/-- Selector satisfaction for one element. -/
def matchesSel (e : Elem) : Sel → Bool
  | .all => true
  | .tag t => e.tag == t
  | .tagAttrEq t a v => e.tag == t && getAttr e a == some v
  | .tagAttrPresent t a => e.tag == t && (getAttr e a).isSome
  | .tagAttrAbsent t a => e.tag == t && (getAttr e a).isNone
  | .attrEq a v => getAttr e a == some v
  | .attrPresent a => (getAttr e a).isSome
  | .comma s₁ s₂ => matchesSel e s₁ || matchesSel e s₂

/-- `page.$$(selector)`: all matches in document order. -/
def queryAll (doc : List Elem) (s : Sel) : List Elem :=
  doc.filter (fun e => matchesSel e s)

/-- `page.$(selector)`: first match. -/
def queryFirst (doc : List Elem) (s : Sel) : Option Elem :=
  (queryAll doc s).head?

/-- The page collaborator: the document plus Playwright's `getByRole`
accessible-name query (external code; modelled as oracles returning the
element handle and the locator's diagnostic string, `none` covering both
"no match" and a thrown/timed-out query). -/
structure Page where
  doc : List Elem
  roleExact : String → String → Option (Elem × String)
  rolePartial : String → String → Option (Elem × String)

/-- `SmartTextLocator.getElementText`:
`textContent || innerText || inputValue || ""`. -/
def getElementText (e : Elem) : String :=
  jsOrS e.textContent (jsOrS e.innerText e.inputValue)

/-- `SmartTextLocator.getElementSelector`: `tag#id`, else `tag.firstClass`,
else `tag`. -/
def getElementSelector (e : Elem) : String :=
  let tagName := jsToLower e.tag
  match getAttr e "id" with
  | some id =>
    if id ≠ "" then tagName ++ "#" ++ id
    else match getAttr e "class" with
      | some className =>
        if className ≠ "" then tagName ++ "." ++ (jsSplitSpace className).headD ""
        else tagName
      | none => tagName
  | none =>
    match getAttr e "class" with
    | some className =>
      if className ≠ "" then tagName ++ "." ++ (jsSplitSpace className).headD ""
      else tagName
    | none => tagName

/-- A resolution result: `{element, confidence, strategy, matchedText,
selector}` as constructed by every strategy. -/
structure LocatorResult where
  element : Elem
  confidence : ℚ
  strategy : String
  matchedText : String
  selector : String
deriving DecidableEq, Repr

/-! ## Strategy set -/

/-- `findByLabelledBy`: elements carrying `aria-labelledby`, resolving each
referenced id and comparing its text (equality or containment either way);
first hit wins with confidence 0.95. -/
def findByLabelledBy (opts : LocOpts) (page : Page) (searchText : String) :
    Option LocatorResult :=
  let normalizedSearch := normalizeText opts searchText
  (queryAll page.doc (.attrPresent "aria-labelledby")).findSome? fun element =>
    match getAttr element "aria-labelledby" with
    | none => none
    | some labelledById =>
      if labelledById = "" then none
      else (jsSplitSpace labelledById).findSome? fun labelId =>
        match queryFirst page.doc (.attrEq "id" labelId) with
        | none => none
        | some labelElement =>
          let labelText := getElementText labelElement
          let normalizedLabel := normalizeText opts labelText
          if normalizedLabel = normalizedSearch ||
              strContains normalizedLabel normalizedSearch ||
              strContains normalizedSearch normalizedLabel then
            some { element := element, confidence := 95/100,
                   strategy := "aria-labelledby", matchedText := labelText,
                   selector := getElementSelector element }
          else none

/-- The tag sweep of `findByExactText`. -/
def exactTextSelectors : List Sel :=
  [.tag "button", .tagAttrEq "input" "type" "button",
   .tagAttrEq "input" "type" "submit", .tag "a", .tag "select", .tag "input",
   .tag "textarea", .attrEq "role" "button", .tag "label", .tag "span",
   .tag "div", .tag "p"]

/-- `findByExactText`: first element over the tag sweep whose normalized
text equals the normalized search; confidence 1.0. -/
def findByExactText (opts : LocOpts) (page : Page) (searchText : String) :
    Option LocatorResult :=
  let normalizedSearch := normalizeText opts searchText
  exactTextSelectors.findSome? fun selector =>
    (queryAll page.doc selector).findSome? fun element =>
      let elementText := getElementText element
      if normalizeText opts elementText = normalizedSearch then
        some { element := element, confidence := 1, strategy := "exact-text",
               matchedText := elementText,
               selector := getElementSelector element }
      else none

/-- The tag sweep of `findByPartialText`. -/
def partTextSelectors : List Sel :=
  [.tag "button", .tagAttrEq "input" "type" "button",
   .tagAttrEq "input" "type" "submit", .tag "a", .attrEq "role" "button",
   .tag "label", .tag "span", .tag "div"]

/-- The best-so-far update used by the strategies and the orchestrator:
replace only on strictly greater confidence. -/
def betterThan (best : Option LocatorResult) (confidence : ℚ) : Bool :=
  match best with
  | none => true
  | some b => confidence > b.confidence

/-- `findByPartialText`: skipped for normalized queries shorter than 3
chars; containment hits scored by `calculatePartialMatchConfidence`,
keeping the strictly-best. -/
def findByPartText (opts : LocOpts) (page : Page) (searchText : String) :
    Option LocatorResult :=
  let normalizedSearch := normalizeText opts searchText
  if normalizedSearch.length < 3 then none
  else
    partTextSelectors.foldl (fun best selector =>
      (queryAll page.doc selector).foldl (fun best element =>
        let elementText := getElementText element
        let normalizedElement := normalizeText opts elementText
        if strContains normalizedElement normalizedSearch then
          let confidence :=
            calculatePartialMatchConfidence normalizedSearch normalizedElement
          if betterThan best confidence then
            some { element := element, confidence := confidence,
                   strategy := "partial-text", matchedText := elementText,
                   selector := getElementSelector element }
          else best
        else best) best) none

/-- `findByFuzzyText`: sweep every element with text of length in (0,200),
keep candidates above the configured threshold, return the global best by
similarity (the source's stable descending sort plus `[0]` = earliest
maximum). -/
def findByFuzzyText (opts : LocOpts) (page : Page) (searchText : String) :
    Option LocatorResult :=
  let elementTexts := (queryAll page.doc .all).filterMap fun element =>
    let text := getElementText element
    if text ≠ "" ∧ text.length > 0 ∧ text.length < 200 then
      let similarity := calculateTextSimilarity opts searchText text
      if similarity > opts.threshold then
        some (element, text, getElementSelector element, similarity)
      else none
    else none
  match elementTexts.foldl (fun best et =>
      match best with
      | none => some et
      | some b => if et.2.2.2 > b.2.2.2 then some et else best) none with
  | none => none
  | some best =>
    some { element := best.1, confidence := best.2.2.2,
           strategy := "fuzzy-text", matchedText := best.2.1,
           selector := best.2.2.1 }

/-- `findByAriaLabel`: first element whose non-empty `aria-label`
normalizes to the search; confidence 0.9. -/
def findByAriaLabel (opts : LocOpts) (page : Page) (searchText : String) :
    Option LocatorResult :=
  let normalizedSearch := normalizeText opts searchText
  (queryAll page.doc (.attrPresent "aria-label")).findSome? fun element =>
    match getAttr element "aria-label" with
    | none => none
    | some ariaLabel =>
      if ariaLabel ≠ "" ∧ normalizeText opts ariaLabel = normalizedSearch then
        some { element := element, confidence := 9/10,
               strategy := "aria-label", matchedText := ariaLabel,
               selector := getElementSelector element }
      else none

/-- `findByPlaceholder`: first `input[placeholder]`/`textarea[placeholder]`
whose normalized placeholder contains the normalized search, scored by
`calculatePartialMatchConfidence`. -/
def findByPlaceholder (opts : LocOpts) (page : Page) (searchText : String) :
    Option LocatorResult :=
  let normalizedSearch := normalizeText opts searchText
  (queryAll page.doc
      (.comma (.tagAttrPresent "input" "placeholder")
        (.tagAttrPresent "textarea" "placeholder"))).findSome? fun element =>
    match getAttr element "placeholder" with
    | none => none
    | some placeholder =>
      if placeholder ≠ "" ∧
          strContains (normalizeText opts placeholder) normalizedSearch then
        some { element := element,
               confidence := calculatePartialMatchConfidence normalizedSearch
                 (normalizeText opts placeholder),
               strategy := "placeholder", matchedText := placeholder,
               selector := getElementSelector element }
      else none

/-- `findByTitle`: first `[title]` whose normalized title contains the
normalized search; confidence 0.8. -/
def findByTitle (opts : LocOpts) (page : Page) (searchText : String) :
    Option LocatorResult :=
  let normalizedSearch := normalizeText opts searchText
  (queryAll page.doc (.attrPresent "title")).findSome? fun element =>
    match getAttr element "title" with
    | none => none
    | some title =>
      if title ≠ "" ∧ strContains (normalizeText opts title) normalizedSearch then
        some { element := element, confidence := 8/10, strategy := "title",
               matchedText := title, selector := getElementSelector element }
      else none

/-- The button-like sweep of `findByButtonText`. -/
def buttonSelectors : List Sel :=
  [.tag "button", .tagAttrEq "input" "type" "button",
   .tagAttrEq "input" "type" "submit", .tagAttrEq "input" "type" "reset",
   .attrEq "role" "button"]

/-- `findByButtonText`: exact text (or exact `value`) scores 1.0,
containment 0.95; keeps the strictly-best over the sweep. -/
def findByButtonText (opts : LocOpts) (page : Page) (searchText : String) :
    Option LocatorResult :=
  let normalizedSearch := normalizeText opts searchText
  buttonSelectors.foldl (fun best selector =>
    (queryAll page.doc selector).foldl (fun best button =>
      let text := getElementText button
      let value := getAttr button "value"
      let textToCheck := jsOrS text (value.getD "")
      let normalizedText := normalizeText opts textToCheck
      let confidence : ℚ :=
        if normalizedText = normalizedSearch then 1
        else if strContains normalizedText normalizedSearch then 95/100
        else if (value.getD "") ≠ "" ∧
            normalizeText opts (value.getD "") = normalizedSearch then 1
        else 0
      if confidence > 0 ∧ betterThan best confidence then
        some { element := button, confidence := confidence,
               strategy := "button-text", matchedText := textToCheck,
               selector := getElementSelector button }
      else best) best) none

/-- `findByLinkText`: first anchor whose normalized text contains the
normalized search, scored by `calculatePartialMatchConfidence`. -/
def findByLinkText (opts : LocOpts) (page : Page) (searchText : String) :
    Option LocatorResult :=
  let normalizedSearch := normalizeText opts searchText
  (queryAll page.doc (.tag "a")).findSome? fun link =>
    let text := getElementText link
    let normalized := normalizeText opts text
    if strContains normalized normalizedSearch then
      some { element := link,
             confidence := calculatePartialMatchConfidence normalizedSearch normalized,
             strategy := "link-text", matchedText := text,
             selector := getElementSelector link }
    else none

/-! ## Native and implicit ARIA-role strategies -/

/-- The regex metacharacters escaped by `findByAriaRole`
(`/[.*+?^${}()|[\]\\]/g`). -/
def isRegexSpecial (c : Char) : Bool :=
  c = '.' || c = '*' || c = '+' || c = '?' || c = '^' || c = '$' ||
  c = '\x7b' || c = '\x7d' || c = '(' || c = ')' || c = '|' || c = '[' ||
  c = ']' || c = '\\'

/-- `replace(/[.*+?^${}()|[\]\\]/g, "\\$&")`. -/
def escapeRegex (s : String) : String :=
  String.mk (s.data.flatMap fun c => if isRegexSpecial c then ['\\', c] else [c])

/-- `split(/\s+/)` for strings with no leading or trailing whitespace
(always the case at its only call site, where the input was trimmed). -/
def jsSplitWsRuns (s : String) : List String :=
  (splitOnSpace (collapseWs s.data)).map String.mk

/-- `findByAriaRole`: only for role-syntax queries; asks the external
`getByRole` collaborator for an exact accessible-name match (confidence
1.0), then for a case-insensitive wildcard-joined regex match (confidence
0.9). -/
def findByAriaRole (page : Page) (searchText : String) : Option LocatorResult :=
  match parseAriaRoleSyntax searchText with
  | none => none
  | some parsed =>
    let role := parsed.role
    let description := parsed.description
    let cleanDescription := jsTrim description
    match page.roleExact role cleanDescription with
    | some (elementHandle, selector) =>
      some { element := elementHandle, confidence := 1,
             strategy := "aria-role-native-exact",
             matchedText := role ++ "[" ++ description ++ "]",
             selector := selector }
    | none =>
      let escapedDescription := escapeRegex cleanDescription
      let fuzzyRegExpString :=
        String.intercalate ".*?" (jsSplitWsRuns escapedDescription)
      match page.rolePartial role fuzzyRegExpString with
      | some (elementHandle, selector) =>
        some { element := elementHandle, confidence := 9/10,
               strategy := "aria-role-native-partial",
               matchedText := role ++ "[" ++ description ++ "]",
               selector := selector }
      | none => none

/-- `findByImplicitRole`'s `roleToElementMap`: the fixed role vocabulary
and its tag/attribute selectors. -/
def roleToElementMap (role : String) : Option (List Sel) :=
  match role with
  | "button" => some [.attrEq "role" "button", .tag "button",
      .tagAttrEq "input" "type" "button", .tagAttrEq "input" "type" "submit",
      .tagAttrEq "input" "type" "reset"]
  | "textbox" => some [.attrEq "role" "textbox", .tagAttrAbsent "input" "type",
      .tagAttrEq "input" "type" "text", .tagAttrEq "input" "type" "email",
      .tagAttrEq "input" "type" "password", .tagAttrEq "input" "type" "search",
      .tagAttrEq "input" "type" "tel", .tagAttrEq "input" "type" "url",
      .tag "textarea"]
  | "checkbox" => some [.tagAttrEq "input" "type" "checkbox"]
  | "radio" => some [.tagAttrEq "input" "type" "radio"]
  | "link" => some [.tagAttrPresent "a" "href"]
  | "heading" => some [.tag "h1", .tag "h2", .tag "h3", .tag "h4", .tag "h5",
      .tag "h6"]
  | "list" => some [.tag "ul", .tag "ol"]
  | "listitem" => some [.tag "li"]
  | "img" => some [.tag "img"]
  | "table" => some [.tag "table"]
  | "row" => some [.tag "tr"]
  | "cell" => some [.tag "td", .tag "th"]
  | "form" => some [.tag "form"]
  | "navigation" => some [.tag "nav"]
  | "main" => some [.tag "main"]
  | "complementary" => some [.tag "aside"]
  | "contentinfo" => some [.tag "footer"]
  | "banner" => some [.tag "header"]
  | "search" => some [.tag "search"]
  | "alert" => some [.attrEq "role" "alert", .tag "div", .tag "span"]
  | "dialog" => some [.tag "dialog", .attrEq "role" "dialog"]
  | "menu" => some [.tag "menu"]
  | "menuitem" => some [.tag "menuitem"]
  | "tab" => some [.attrEq "role" "tab"]
  | "tabpanel" => some [.attrEq "role" "tabpanel"]
  | _ => none

/-- One element's contribution to `findByImplicitRole`'s known-role sweep:
the five prioritized signals (aria-label, aria-labelledby,
aria-describedby ×0.95, placeholder for `textbox`, text content ×0.85),
each folded into the strictly-better best-so-far. -/
def implicitRoleStep (opts : LocOpts) (doc : List Elem) (role : String)
    (normalizedDescription : String) (best : Option LocatorResult)
    (element : Elem) : Option LocatorResult :=
  let best :=
    match getAttr element "aria-label" with
    | some ariaLabel =>
      if ariaLabel ≠ "" then
        let normalizedLabel := normalizeText opts ariaLabel
        if matchesDescription normalizedDescription normalizedLabel then
          let confidence :=
            calculatePartialMatchConfidence normalizedDescription normalizedLabel
          if betterThan best confidence then
            some { element := element, confidence := confidence,
                   strategy := "implicit-aria-role-label",
                   matchedText := role ++ "[" ++ ariaLabel ++ "]",
                   selector := getElementSelector element }
          else best
        else best
      else best
    | none => best
  let best :=
    match getAttr element "aria-labelledby" with
    | some labelledById =>
      if labelledById ≠ "" then
        (jsSplitSpace labelledById).foldl (fun best labelId =>
          match queryFirst doc (.attrEq "id" labelId) with
          | some labelElement =>
            let labelText := getElementText labelElement
            let normalizedLabel := normalizeText opts labelText
            if matchesDescription normalizedDescription normalizedLabel then
              let confidence :=
                calculatePartialMatchConfidence normalizedDescription normalizedLabel
              if betterThan best confidence then
                some { element := element, confidence := confidence,
                       strategy := "implicit-aria-role-labelledby",
                       matchedText := role ++ "[" ++ labelText ++ "]",
                       selector := getElementSelector element }
              else best
            else best
          | none => best) best
      else best
    | none => best
  let best :=
    match getAttr element "aria-describedby" with
    | some describedById =>
      if describedById ≠ "" then
        (jsSplitSpace describedById).foldl (fun best descId =>
          match queryFirst doc (.attrEq "id" descId) with
          | some descElement =>
            let descText := getElementText descElement
            let normalizedDesc := normalizeText opts descText
            if matchesDescription normalizedDescription normalizedDesc then
              let confidence :=
                calculatePartialMatchConfidence normalizedDescription
                  normalizedDesc * (95/100)
              if betterThan best confidence then
                some { element := element, confidence := confidence,
                       strategy := "implicit-aria-role-describedby",
                       matchedText := role ++ "[" ++ descText ++ "]",
                       selector := getElementSelector element }
              else best
            else best
          | none => best) best
      else best
    | none => best
  let best :=
    if role = "textbox" then
      match getAttr element "placeholder" with
      | some placeholder =>
        if placeholder ≠ "" then
          let normalizedPlaceholder := normalizeText opts placeholder
          if matchesDescription normalizedDescription normalizedPlaceholder then
            let confidence :=
              calculatePartialMatchConfidence normalizedDescription
                normalizedPlaceholder
            if betterThan best confidence then
              some { element := element, confidence := confidence,
                     strategy := "implicit-aria-role-placeholder",
                     matchedText := role ++ "[" ++ placeholder ++ "]",
                     selector := getElementSelector element }
            else best
          else best
        else best
      | none => best
    else best
  let elementText := getElementText element
  if elementText ≠ "" then
    let normalizedElement := normalizeText opts elementText
    if matchesDescription normalizedDescription normalizedElement then
      let confidence :=
        calculatePartialMatchConfidence normalizedDescription
          normalizedElement * (85/100)
      if betterThan best confidence then
        some { element := element, confidence := confidence,
               strategy := "implicit-aria-role-text",
               matchedText := role ++ "[" ++ elementText ++ "]",
               selector := getElementSelector element }
      else best
    else best
  else best

/-- `findByImplicitRole`: for known roles, sweep the mapped selectors
keeping the strictly-best across the five signals; for unknown roles, scan
`[role="..."]` elements returning the first aria-label or text-content
match. -/
def findByImplicitRole (opts : LocOpts) (page : Page) (searchText : String) :
    Option LocatorResult :=
  match parseAriaRoleSyntax searchText with
  | none => none
  | some parsed =>
    let role := parsed.role
    let description := parsed.description
    match roleToElementMap (jsToLower role) with
    | none =>
      let elements := queryAll page.doc (.attrEq "role" role)
      if elements.length > 0 then
        let normalizedDescription := normalizeText opts description
        elements.findSome? fun element =>
          let labelHit :=
            match getAttr element "aria-label" with
            | some ariaLabel =>
              if ariaLabel ≠ "" then
                let normalizedLabel := normalizeText opts ariaLabel
                if matchesDescription normalizedDescription normalizedLabel then
                  some { element := element,
                         confidence := calculatePartialMatchConfidence
                           normalizedDescription normalizedLabel,
                         strategy := "unknown-aria-role",
                         matchedText := role ++ "[" ++ ariaLabel ++ "]",
                         selector := getElementSelector element }
                else none
              else none
            | none => none
          match labelHit with
          | some r => some r
          | none =>
            let elementText := getElementText element
            let normalizedElement := normalizeText opts elementText
            if matchesDescription normalizedDescription normalizedElement then
              some { element := element,
                     confidence := calculatePartialMatchConfidence
                       normalizedDescription normalizedElement,
                     strategy := "unknown-aria-role-text",
                     matchedText := role ++ "[" ++ elementText ++ "]",
                     selector := getElementSelector element }
            else none
      else none
    | some selectors =>
      let normalizedDescription := normalizeText opts description
      selectors.foldl (fun best selector =>
        (queryAll page.doc selector).foldl
          (implicitRoleStep opts page.doc role normalizedDescription) best) none

/-! ## Resolution orchestrator -/

/-- The orchestrator's strategy loop over the already-evaluated strategy
outcomes (each entry is one strategy's `LocatorResult | null`, a thrown
strategy collapsing to `null` through the per-strategy `try/catch`):
early-exit at confidence ≥ 0.95, best-so-far replaced only on strictly
greater confidence, final acceptance only above the strict 0.5 threshold. -/
def runStrategies : List (Option LocatorResult) → Option LocatorResult →
    Option LocatorResult
  | [], best =>
    match best with
    | some b => if b.confidence > 1/2 then some b else none
    | none => none
  | r :: rest, best =>
    match r with
    | some result =>
      if result.confidence ≥ 95/100 then some result
      else if betterThan best result.confidence then
        runStrategies rest (some result)
      else runStrategies rest best
    | none => runStrategies rest best

/-- The generic strategy order chosen by `findByText` from `preferInputs`. -/
def strategyResults (opts : LocOpts) (page : Page) (searchText : String)
    (preferInputs : Bool) : List (Option LocatorResult) :=
  if preferInputs then
    [findByPlaceholder opts page searchText,
     findByAriaLabel opts page searchText,
     findByLabelledBy opts page searchText,
     findByTitle opts page searchText,
     findByExactText opts page searchText,
     findByPartText opts page searchText,
     findByButtonText opts page searchText,
     findByLinkText opts page searchText,
     findByFuzzyText opts page searchText]
  else
    [findByButtonText opts page searchText,
     findByLinkText opts page searchText,
     findByAriaLabel opts page searchText,
     findByLabelledBy opts page searchText,
     findByPlaceholder opts page searchText,
     findByTitle opts page searchText,
     findByExactText opts page searchText,
     findByPartText opts page searchText,
     findByFuzzyText opts page searchText]

/-- `SmartTextLocator.findByText`: falsy/empty guards, the role-syntax path
(native `getByRole` then implicit role, each returned as soon as it
succeeds), then the generic strategy loop. -/
def findByText (rawOpts : SmartLocatorOptions) (page : Page)
    (searchText : String) (preferInputs : Bool) : Option LocatorResult :=
  let opts := resolveOptions rawOpts
  if searchText = "" then none
  else if (jsTrim searchText).length = 0 then none
  else
    let roleResult :=
      match parseAriaRoleSyntax searchText with
      | some _ =>
        match findByAriaRole page searchText with
        | some r => some r
        | none => findByImplicitRole opts page searchText
      | none => none
    match roleResult with
    | some r => some r
    | none => runStrategies (strategyResults opts page searchText preferInputs) none

/-- `findByText` at the JS boundary where the argument may be
`null`/`undefined` (the `!searchText || typeof searchText !== "string"`
guard). -/
def findByTextN (rawOpts : SmartLocatorOptions) (page : Page)
    (searchText : Option String) (preferInputs : Bool) : Option LocatorResult :=
  match searchText with
  | none => none
  | some s => findByText rawOpts page s preferInputs

/-! ## SmartPage: retry/wait controller and action executor

Real time is abstracted: each retry attempt is an environment entry holding
the document/page visible to that attempt's fresh resolution plus the
duration the resolution call takes, raced against the per-attempt timer;
each `smartWait` poll is an entry holding the page at that poll plus the
outcome of the `waitForElementState` sub-wait. -/

/-- JS `a || b` for optional numbers (`0` is falsy). -/
def jsOrQ (a : Option ℚ) (b : ℚ) : ℚ :=
  match a with
  | some x => if x = 0 then b else x
  | none => b

/-- JS `a || b` for optional naturals (`0` is falsy). -/
def jsOrN (a : Option ℕ) (b : ℕ) : ℕ :=
  match a with
  | some x => if x = 0 then b else x
  | none => b

/-- `SmartPage.isInputElement`: input/textarea tag, or `input` whose `type`
is empty/absent or one of the text-like types, or `textbox`/`searchbox`
role. -/
def isInputElement (e : Elem) : Bool :=
  let tagName := jsToLower e.tag
  let type? := getAttr e "type"
  let role? := getAttr e "role"
  let inputTags := ["input", "textarea"]
  let inputTypes := ["text", "email", "password", "search", "tel", "url", "number"]
  let inputRoles := ["textbox", "searchbox"]
  inputTags.contains tagName ||
  (tagName == "input" &&
    (match type? with
     | none => true
     | some t => t = "" || inputTypes.contains t)) ||
  inputRoles.contains (role?.getD "")

/-- `SmartPage.isSelectElement`: `select` tag or `listbox`/`combobox` role. -/
def isSelectElement (e : Elem) : Bool :=
  let tagName := jsToLower e.tag
  let role? := getAttr e "role"
  tagName == "select" || role?.getD "" == "listbox" || role?.getD "" == "combobox"

/-- One retry attempt's environment: the page that attempt's fresh
resolution sees, and how long the resolution call takes (raced against the
per-attempt timer; the attempt is abandoned when the timer fires first). -/
structure Attempt where
  page : Page
  duration : ℚ

/-- The per-attempt timeout `findElementWithRetry` actually races against:
`Math.min(timeoutMs / maxRetries, 8000)`. -/
def perAttemptTimeoutCapped (timeoutMs : ℚ) (maxRetries : ℕ) : ℚ :=
  min (timeoutMs / (maxRetries : ℚ)) 8000

/-- The attempt loop of `findElementWithRetry`: `i` is the attempt number,
the second argument the attempts remaining. -/
def findRetryGo (rawOpts : SmartLocatorOptions) (description : String)
    (cap : ℚ) (env : ℕ → Attempt) : ℕ → ℕ → Option LocatorResult
  | _, 0 => none
  | i, remaining + 1 =>
    if (env i).duration < cap then
      match findByText rawOpts (env i).page description false with
      | some result =>
        if result.confidence > 1/2 then some result
        else findRetryGo rawOpts description cap env (i + 1) remaining
      | none => findRetryGo rawOpts description cap env (i + 1) remaining
    else findRetryGo rawOpts description cap env (i + 1) remaining

/-- `SmartPage.findElementWithRetry`: up to `maxRetries` attempts, each a
fresh `findByText` raced against `Math.min(timeoutMs / maxRetries, 8000)`,
accepting only results above confidence 0.5; `none` once exhausted. -/
def findElementWithRetry (rawOpts : SmartLocatorOptions)
    (description : String) (timeout? : Option ℚ) (env : ℕ → Attempt) :
    Option LocatorResult :=
  let maxRetries := jsOrN rawOpts.maxRetries 3
  let timeoutMs := jsOrQ timeout? (jsOrQ rawOpts.timeout 30000)
  findRetryGo rawOpts description
    (perAttemptTimeoutCapped timeoutMs maxRetries) env 1 maxRetries

/-- The attempt loop of `findInputElementWithRetry`: as `findRetryGo` but
resolving with `preferInputs` and, on an acceptable result, skipping to the
next attempt when the element fails `isInputElement`. -/
def findInputRetryGo (rawOpts : SmartLocatorOptions) (description : String)
    (cap : ℚ) (env : ℕ → Attempt) : ℕ → ℕ → Option LocatorResult
  | _, 0 => none
  | i, remaining + 1 =>
    if (env i).duration < cap then
      match findByText rawOpts (env i).page description true with
      | some result =>
        if result.confidence > 1/2 then
          if isInputElement result.element then some result
          else findInputRetryGo rawOpts description cap env (i + 1) remaining
        else findInputRetryGo rawOpts description cap env (i + 1) remaining
      | none => findInputRetryGo rawOpts description cap env (i + 1) remaining
    else findInputRetryGo rawOpts description cap env (i + 1) remaining

/-- `SmartPage.findInputElementWithRetry`: per-attempt timeout
`timeoutMs / maxRetries` (no 8000 cap here), resolution under
`preferInputs`, and a post-resolution `isInputElement` check whose failure
is logged and retried. -/
def findInputElementWithRetry (rawOpts : SmartLocatorOptions)
    (description : String) (timeout? : Option ℚ) (env : ℕ → Attempt) :
    Option LocatorResult :=
  let maxRetries := jsOrN rawOpts.maxRetries 3
  let timeoutMs := jsOrQ timeout? (jsOrQ rawOpts.timeout 30000)
  findInputRetryGo rawOpts description (timeoutMs / (maxRetries : ℚ)) env 1 maxRetries

/-- The action executor's error taxonomy as thrown by `SmartPage`. -/
inductive SmartError where
  | notFound (msg : String)
  | wrongKind (msg : String)
  | actionFailed (msg : String)
deriving DecidableEq, Repr

deriving instance DecidableEq for Except

/-- `SmartPage.smartFill`: resolve with the input-preferring retrier, throw
not-found on `null`, throw wrong-kind when the resolved element fails
`isInputElement`, then wait/fill (the external waits and the
value-assignment-plus-event-dispatch, abstracted to a success flag). -/
def smartFill (rawOpts : SmartLocatorOptions) (description value : String)
    (timeout? : Option ℚ) (env : ℕ → Attempt) (fillOk : Bool) :
    Except SmartError Unit :=
  match findInputElementWithRetry rawOpts description timeout? env with
  | none =>
    .error (.notFound
      ("Could not find input field with description: \"" ++ description ++ "\""))
  | some result =>
    if !isInputElement result.element then
      .error (.wrongKind ("Found element is not an input field: " ++ result.selector))
    else if fillOk then .ok ()
    else .error (.actionFailed
      ("Element not visible or fill operation failed: " ++ description))

/-- One `smartWait` poll iteration's environment: the page that iteration's
fresh resolution sees, and the outcome of `waitForElementState` on the
found element (`none` = reached the requested state within the sub-timeout,
`some msg` = the sub-wait failed with that message). -/
structure WaitIter where
  page : Page
  stateErr : Option String

/-- The timeout error message `smartWait` throws:
`Timeout waiting for element: "d" to be s. Last error: m`
(`lastError?.message || "none"`). -/
def smartWaitTimeoutMsg (description state : String)
    (lastErr : Option String) : String :=
  "Timeout waiting for element: \"" ++ description ++ "\" to be " ++ state ++
  ". Last error: " ++ jsOrS (lastErr.getD "") "none"

/-- The poll loop of `smartWait` over the iterations the overall timeout
admits: re-resolve from scratch, return on a state-wait success, remember
the sub-error otherwise, and throw the timeout error once polls run out. -/
def smartWaitGo (rawOpts : SmartLocatorOptions) (description state : String)
    (lastErr : Option String) : List WaitIter → Except String Unit
  | [] => .error (smartWaitTimeoutMsg description state lastErr)
  | it :: rest =>
    match findByText rawOpts it.page description false with
    | some _ =>
      match it.stateErr with
      | none => .ok ()
      | some e => smartWaitGo rawOpts description state (some e) rest
    | none => smartWaitGo rawOpts description state lastErr rest

/-- `SmartPage.smartWait`: the poll loop started with no recorded
sub-error. `iters` is the sequence of 500 ms polls the overall timeout
admits, each with the document current at that poll. -/
def smartWait (rawOpts : SmartLocatorOptions) (description state : String)
    (iters : List WaitIter) : Except String Unit :=
  smartWaitGo rawOpts description state none iters

/-- One poll's contribution to the remembered `lastError`: a found element
whose state-wait failed replaces it, everything else keeps it. -/
def lastSubStep (rawOpts : SmartLocatorOptions) (description : String)
    (acc : Option String) (it : WaitIter) : Option String :=
  match findByText rawOpts it.page description false with
  | some _ =>
    match it.stateErr with
    | some e => some e
    | none => acc
  | none => acc

/-- The sub-error `smartWait` last observed over a run that never reached
the requested state: the state-wait error of the latest poll whose
resolution found an element. -/
def lastSubError (rawOpts : SmartLocatorOptions) (description : String)
    (iters : List WaitIter) : Option String :=
  iters.foldl (lastSubStep rawOpts description) none

/-- `findElementWithRetry` as the spec's words describe it: the overall
timeout split evenly across attempts with no 8000 ms cap.  Second
definition for the refinement comparison; everything else matches
`findElementWithRetry`. -/
def findElementWithRetryEvenSplit (rawOpts : SmartLocatorOptions)
    (description : String) (timeout? : Option ℚ) (env : ℕ → Attempt) :
    Option LocatorResult :=
  let maxRetries := jsOrN rawOpts.maxRetries 3
  let timeoutMs := jsOrQ timeout? (jsOrQ rawOpts.timeout 30000)
  findRetryGo rawOpts description (timeoutMs / (maxRetries : ℚ)) env 1 maxRetries

/-! ## Concrete fixtures used by witnesses and counterexamples -/

/-- A `getByRole` collaborator that never matches (no accessible name
reachable by the queried role/name, or the query times out). -/
def noRole : String → String → Option (Elem × String) := fun _ _ => none

/-- A page holding one `<button aria-label="abc">`. -/
def pageButtonAbc : Page :=
  { doc := [{ tag := "button", attrs := [("aria-label", "abc")] }],
    roleExact := noRole, rolePartial := noRole }

/-- A page holding one `<button>email</button>`. -/
def pageButtonEmail : Page :=
  { doc := [{ tag := "button", textContent := "email" }],
    roleExact := noRole, rolePartial := noRole }

/-- A page holding one `<div aria-label="foo">`. -/
def pageDivFoo : Page :=
  { doc := [{ tag := "div", attrs := [("aria-label", "foo")] }],
    roleExact := noRole, rolePartial := noRole }

/-- A page holding one `<input placeholder="email">`. -/
def pageInputEmail : Page :=
  { doc := [{ tag := "input", attrs := [("placeholder", "email")] }],
    roleExact := noRole, rolePartial := noRole }

/-! ## Orchestrator-loop lemmas -/

/-- Every result in the list has confidence below `c` (decidable form). -/
def allConfLt (l : List (Option LocatorResult)) (c : ℚ) : Bool :=
  l.all fun x =>
    match x with
    | none => true
    | some r => r.confidence < c

/-- Every result in the list has confidence at most `c` (decidable form). -/
def allConfLe (l : List (Option LocatorResult)) (c : ℚ) : Bool :=
  l.all fun x =>
    match x with
    | none => true
    | some r => r.confidence ≤ c

theorem allConfLt_elim {l : List (Option LocatorResult)} {c : ℚ}
    (h : allConfLt l c = true) {r : LocatorResult} (hr : some r ∈ l) :
    r.confidence < c := by
  have := List.all_eq_true.mp h _ hr
  simpa using this

theorem allConfLe_elim {l : List (Option LocatorResult)} {c : ℚ}
    (h : allConfLe l c = true) {r : LocatorResult} (hr : some r ∈ l) :
    r.confidence ≤ c := by
  have := List.all_eq_true.mp h _ hr
  simpa using this

theorem allConfLt_intro {l : List (Option LocatorResult)} {c : ℚ}
    (h : ∀ r : LocatorResult, some r ∈ l → r.confidence < c) :
    allConfLt l c = true := by
  refine List.all_eq_true.mpr ?_
  intro x hx
  match x with
  | none => rfl
  | some r => simpa using h r hx

theorem allConfLe_intro {l : List (Option LocatorResult)} {c : ℚ}
    (h : ∀ r : LocatorResult, some r ∈ l → r.confidence ≤ c) :
    allConfLe l c = true := by
  refine List.all_eq_true.mpr ?_
  intro x hx
  match x with
  | none => rfl
  | some r => simpa using h r hx

theorem allConfLt_cons {x : Option LocatorResult}
    {l : List (Option LocatorResult)} {c : ℚ}
    (h : allConfLt (x :: l) c = true) : allConfLt l c = true := by
  simp only [allConfLt, List.all_cons, Bool.and_eq_true] at h ⊢
  exact h.2

theorem allConfLe_cons {x : Option LocatorResult}
    {l : List (Option LocatorResult)} {c : ℚ}
    (h : allConfLe (x :: l) c = true) : allConfLe l c = true := by
  simp only [allConfLe, List.all_cons, Bool.and_eq_true] at h ⊢
  exact h.2

/-- Anything the strategy loop returns has confidence above the strict 0.5
acceptance threshold. -/
theorem runStrategies_gt_half :
    ∀ (l : List (Option LocatorResult)) (best : Option LocatorResult)
      (r : LocatorResult), runStrategies l best = some r →
      (1:ℚ)/2 < r.confidence := by
  intro l
  induction l with
  | nil =>
    intro best r h
    match best with
    | none => simp [runStrategies] at h
    | some b =>
      simp only [runStrategies] at h
      split at h
      · cases h; assumption
      · cases h
  | cons x rest ih =>
    intro best r h
    match x with
    | none => exact ih best r h
    | some result =>
      simp only [runStrategies] at h
      split at h
      · cases h
        calc (1:ℚ)/2 < 95/100 := by norm_num
          _ ≤ r.confidence := by assumption
      · split at h
        · exact ih _ r h
        · exact ih best r h

/-- Once the best-so-far already beats (weakly) every remaining result and
clears the threshold, the loop returns it. -/
theorem runStrategies_keep (l : List (Option LocatorResult))
    (b : LocatorResult) (hb : (1:ℚ)/2 < b.confidence)
    (h95 : allConfLt l (95/100) = true)
    (hle : allConfLe l b.confidence = true) :
    runStrategies l (some b) = some b := by
  induction l with
  | nil => simp only [runStrategies]; rw [if_pos hb]
  | cons x rest ih =>
    match x with
    | none => exact ih (allConfLt_cons h95) (allConfLe_cons hle)
    | some result =>
      have h1 : result.confidence < 95/100 :=
        allConfLt_elim h95 (List.mem_cons_self _ _)
      have h2 : result.confidence ≤ b.confidence :=
        allConfLe_elim hle (List.mem_cons_self _ _)
      simp only [runStrategies]
      rw [if_neg (by exact not_le.mpr h1)]
      rw [if_neg (by simp [betterThan]; exact h2)]
      exact ih (allConfLt_cons h95) (allConfLe_cons hle)

/-- Processing a prefix whose results all stay below `c` (and below the
early-exit level) leaves a best-so-far that is absent or below `c`. -/
theorem runStrategies_prefix (c : ℚ) (hc : c ≤ 95/100) :
    ∀ (l₁ rest : List (Option LocatorResult)) (best : Option LocatorResult),
      allConfLt l₁ c = true →
      (best = none ∨ ∃ b, best = some b ∧ b.confidence < c) →
      ∃ best', runStrategies (l₁ ++ rest) best = runStrategies rest best' ∧
        (best' = none ∨ ∃ b, best' = some b ∧ b.confidence < c) := by
  intro l₁
  induction l₁ with
  | nil => intro rest best _ hbest; exact ⟨best, rfl, hbest⟩
  | cons x l ih =>
    intro rest best hlt hbest
    match x with
    | none =>
      rw [List.cons_append]
      simpa using ih rest best (allConfLt_cons hlt) hbest
    | some result =>
      have h1 : result.confidence < c := allConfLt_elim hlt (List.mem_cons_self _ _)
      rw [List.cons_append]
      simp only [runStrategies]
      rw [if_neg (not_le.mpr (lt_of_lt_of_le h1 hc))]
      by_cases hbt : betterThan best result.confidence = true
      · rw [if_pos hbt]
        exact ih rest (some result) (allConfLt_cons hlt)
          (Or.inr ⟨result, rfl, h1⟩)
      · rw [if_neg hbt]
        exact ih rest best (allConfLt_cons hlt) hbest

/-- C3: during the generic strategy iteration of `findByText`, the first
strategy (in iteration order) producing a result with confidence ≥ 0.95
has its result returned immediately; since the conclusion holds for every
`post` whatsoever, no strategy after it can influence (is never consulted
on) that call. -/
theorem c3_early_exit (pre post : List (Option LocatorResult))
    (r₀ : LocatorResult) (hpre : allConfLt pre (95/100) = true)
    (h0 : (95:ℚ)/100 ≤ r₀.confidence) :
    runStrategies (pre ++ some r₀ :: post) none = some r₀ := by
  obtain ⟨best', heq, hbest'⟩ :=
    runStrategies_prefix (95/100) le_rfl pre (some r₀ :: post) none hpre
      (Or.inl rfl)
  rw [heq]
  simp only [runStrategies]
  rw [if_pos h0]

/-- Witness for C3 at a concrete strategy list: a 0.7 result, then a 0.96
result, then a 0.99 one; the 0.96 result is returned. -/
theorem c3_witness :
    runStrategies
      [some { element := { tag := "div" }, confidence := 7/10,
              strategy := "s1", matchedText := "", selector := "div" },
       some { element := { tag := "div" }, confidence := 96/100,
              strategy := "s2", matchedText := "", selector := "div" },
       some { element := { tag := "div" }, confidence := 99/100,
              strategy := "s3", matchedText := "", selector := "div" }] none =
      some { element := { tag := "div" }, confidence := 96/100,
             strategy := "s2", matchedText := "", selector := "div" } :=
  c3_early_exit
    [some { element := { tag := "div" }, confidence := 7/10,
            strategy := "s1", matchedText := "", selector := "div" }]
    [some { element := { tag := "div" }, confidence := 99/100,
            strategy := "s3", matchedText := "", selector := "div" }]
    _ (by with_unfolding_all decide) (by norm_num)

/-- C4: with no result reaching the 0.95 early exit, two strategies tied
above 0.5 at the top confidence have the earlier one win: the best-so-far
record is replaced only on strictly greater confidence, never on an equal
one. -/
theorem c4_tie_break (l₁ l₂ l₃ : List (Option LocatorResult))
    (r₁ r₂ : LocatorResult) (heq : r₂.confidence = r₁.confidence)
    (hhalf : (1:ℚ)/2 < r₁.confidence)
    (h95 : allConfLt (l₁ ++ (some r₁ :: (l₂ ++ (some r₂ :: l₃)))) (95/100) = true)
    (hpre : allConfLt l₁ r₁.confidence = true)
    (hpost : allConfLe (l₂ ++ (some r₂ :: l₃)) r₁.confidence = true) :
    runStrategies (l₁ ++ (some r₁ :: (l₂ ++ (some r₂ :: l₃)))) none = some r₁ := by
  have h95r₁ : r₁.confidence < 95/100 :=
    allConfLt_elim h95 (by simp)
  have h95rest : allConfLt (l₂ ++ (some r₂ :: l₃)) (95/100) = true := by
    refine allConfLt_intro ?_
    intro r hr
    exact allConfLt_elim h95
      (List.mem_append_right _ (List.mem_cons_of_mem _ hr))
  obtain ⟨best', hrw, hbest'⟩ :=
    runStrategies_prefix r₁.confidence h95r₁.le l₁
      (some r₁ :: (l₂ ++ (some r₂ :: l₃))) none hpre (Or.inl rfl)
  rw [hrw]
  simp only [runStrategies]
  rw [if_neg (not_le.mpr h95r₁)]
  have hbt : betterThan best' r₁.confidence = true := by
    rcases hbest' with h | ⟨b, rfl, hb⟩
    · rw [h]; rfl
    · simp only [betterThan, gt_iff_lt, decide_eq_true_eq]
      exact hb
  rw [if_pos hbt]
  exact runStrategies_keep _ r₁ hhalf h95rest hpost

/-- Witness for C4 at a concrete strategy list: two 0.7 results tie (with
a weaker 0.6 result after them); the earlier 0.7 result is returned. -/
theorem c4_witness :
    runStrategies
      [none,
       some { element := { tag := "div" }, confidence := 7/10,
              strategy := "s1", matchedText := "", selector := "div" },
       some { element := { tag := "span" }, confidence := 7/10,
              strategy := "s2", matchedText := "", selector := "span" },
       some { element := { tag := "p" }, confidence := 6/10,
              strategy := "s3", matchedText := "", selector := "p" }] none =
      some { element := { tag := "div" }, confidence := 7/10,
             strategy := "s1", matchedText := "", selector := "div" } :=
  c4_tie_break [none] []
    [some { element := { tag := "p" }, confidence := 6/10,
            strategy := "s3", matchedText := "", selector := "p" }]
    { element := { tag := "div" }, confidence := 7/10,
      strategy := "s1", matchedText := "", selector := "div" }
    { element := { tag := "span" }, confidence := 7/10,
      strategy := "s2", matchedText := "", selector := "span" }
    (by with_unfolding_all decide) (by norm_num)
    (by with_unfolding_all decide) (by with_unfolding_all decide)
    (by with_unfolding_all decide)

/-- C10: a null, empty, or whitespace-only search text makes
`findByText` return `null` at its input guards, for every page and option
set alike (so no document query happens) and without throwing. -/
theorem c10_invalid_input (rawOpts : SmartLocatorOptions) (page : Page)
    (preferInputs : Bool) (s : Option String)
    (h : s = none ∨ ∃ t, s = some t ∧ jsTrim t = "") :
    findByTextN rawOpts page s preferInputs = none := by
  rcases h with rfl | ⟨t, rfl, ht⟩
  · rfl
  · show findByText rawOpts page t preferInputs = none
    rw [findByText]
    by_cases h0 : t = ""
    · rw [if_pos h0]
    · rw [if_neg h0, ht]
      rfl

/-- Witness for C10: a whitespace-only search on a non-empty page. -/
theorem c10_witness :
    findByTextN {} pageButtonEmail (some "   ") false = none :=
  c10_invalid_input {} pageButtonEmail false (some "   ")
    (Or.inr ⟨"   ", rfl, by decide⟩)

/-- Whatever `findByAriaRole` returns came from the exact (confidence 1.0)
or the regex-partial (confidence 0.9) native query. -/
theorem findByAriaRole_conf (page : Page) (s : String) (r : LocatorResult)
    (h : findByAriaRole page s = some r) :
    r.confidence = 1 ∨ r.confidence = 9/10 := by
  rw [findByAriaRole] at h
  rcases hp : parseAriaRoleSyntax s with _ | q
  · simp only [hp] at h
    cases h
  · simp only [hp] at h
    rcases he : page.roleExact q.role (jsTrim q.description) with _ | ⟨e, sel⟩
    · simp only [he] at h
      rcases hpart : page.rolePartial q.role
          (String.intercalate ".*?"
            (jsSplitWsRuns (escapeRegex (jsTrim q.description)))) with _ | ⟨e2, s2⟩
      · simp only [hpart] at h
        cases h
      · simp only [hpart] at h
        cases h
        right
        rfl
    · simp only [he] at h
      cases h
      left
      rfl

/-- C1 (amended): every non-none `findByText` result clears the strict 0.5
acceptance threshold, except a result produced by the role-syntax path
through `findByImplicitRole`, which is returned without any threshold
check. -/
theorem c1_amended (rawOpts : SmartLocatorOptions) (page : Page) (s : String)
    (preferInputs : Bool) (r : LocatorResult)
    (h : findByText rawOpts page s preferInputs = some r) :
    (1:ℚ)/2 < r.confidence ∨
      findByImplicitRole (resolveOptions rawOpts) page s = some r := by
  rw [findByText] at h
  by_cases h0 : s = ""
  · rw [if_pos h0] at h; cases h
  rw [if_neg h0] at h
  by_cases h1 : (jsTrim s).length = 0
  · rw [if_pos h1] at h; cases h
  rw [if_neg h1] at h
  rcases hp : parseAriaRoleSyntax s with _ | q
  · simp only [hp] at h
    exact Or.inl (runStrategies_gt_half _ _ _ h)
  · simp only [hp] at h
    rcases ha : findByAriaRole page s with _ | ra
    · simp only [ha] at h
      rcases hi : findByImplicitRole (resolveOptions rawOpts) page s with _ | ri
      · simp only [hi] at h
        exact Or.inl (runStrategies_gt_half _ _ _ h)
      · simp only [hi] at h
        cases h
        exact Or.inr rfl
    · simp only [ha] at h
      cases h
      rcases findByAriaRole_conf page s _ ha with hc | hc
      · exact Or.inl (by rw [hc]; norm_num)
      · exact Or.inl (by rw [hc]; norm_num)

/-- C1 (counterexample): on a page with one `<button aria-label="abc">`
and the role-syntax query `button[abc xyz]`, `findByText` returns the
implicit-role result with confidence 3/7, which is not above the 0.5
acceptance threshold — the claim that every non-none result has
confidence > 0.5 fails on the role-syntax path. -/
theorem c1_counterexample :
    (findByText {} pageButtonAbc "button[abc xyz]" false).map
      LocatorResult.confidence = some (3/7) ∧ ¬ ((1:ℚ)/2 < 3/7) := by
  constructor
  · with_unfolding_all decide
  · norm_num

/-- The result `findByText` produces for `"email"` on
`pageButtonEmail` (the exact button-text match). -/
def emailButtonResult : LocatorResult :=
  { element := { tag := "button", textContent := "email" }, confidence := 1,
    strategy := "button-text", matchedText := "email", selector := "button" }

/-- Witness for C1 (amended) at a concrete resolution. -/
theorem c1_witness :
    (1:ℚ)/2 < emailButtonResult.confidence ∨
      findByImplicitRole (resolveOptions {}) pageButtonEmail "email" =
        some emailButtonResult :=
  c1_amended {} pageButtonEmail "email" false emailButtonResult
    (by with_unfolding_all decide)

/-- The input-preferring retry loop only ever returns an element that
passes `isInputElement`. -/
theorem findInputRetryGo_isInput (rawOpts : SmartLocatorOptions)
    (description : String) (cap : ℚ) (env : ℕ → Attempt) :
    ∀ (n i : ℕ) (r : LocatorResult),
      findInputRetryGo rawOpts description cap env i n = some r →
      isInputElement r.element = true := by
  intro n
  induction n with
  | zero => intro i r h; cases h
  | succ n ih =>
    intro i r h
    rw [findInputRetryGo] at h
    split at h
    · rcases hf : findByText rawOpts (env i).page description true with _ | result
      · simp only [hf] at h
        exact ih _ _ h
      · simp only [hf] at h
        by_cases hc : result.confidence > 1/2
        · rw [if_pos hc] at h
          by_cases hin : isInputElement result.element = true
          · rw [if_pos hin] at h
            cases h
            exact hin
          · rw [if_neg hin] at h
            exact ih _ _ h
        · rw [if_neg hc] at h
          exact ih _ _ h
    · exact ih _ _ h

/-- C2 (amended): a resolved element failing the input-kind check is
skipped and resolution retried, so `findInputElementWithRetry` only
returns kind-correct elements and the wrong-kind error in `smartFill` is
unreachable — resolution that only ever finds kind-failing elements ends
in the element-not-found error instead. -/
theorem c2_amended :
    (∀ (rawOpts : SmartLocatorOptions) (d : String) (t : Option ℚ)
       (env : ℕ → Attempt) (r : LocatorResult),
       findInputElementWithRetry rawOpts d t env = some r →
       isInputElement r.element = true) ∧
    (∀ (rawOpts : SmartLocatorOptions) (d v : String) (t : Option ℚ)
       (env : ℕ → Attempt) (fillOk : Bool) (m : String),
       smartFill rawOpts d v t env fillOk ≠
         Except.error (SmartError.wrongKind m)) := by
  have hmain : ∀ (rawOpts : SmartLocatorOptions) (d : String) (t : Option ℚ)
      (env : ℕ → Attempt) (r : LocatorResult),
      findInputElementWithRetry rawOpts d t env = some r →
      isInputElement r.element = true := by
    intro rawOpts d t env r h
    rw [findInputElementWithRetry] at h
    exact findInputRetryGo_isInput rawOpts d _ env _ _ r h
  refine ⟨hmain, ?_⟩
  intro rawOpts d v t env fillOk m
  rw [smartFill]
  rcases hr : findInputElementWithRetry rawOpts d t env with _ | r
  · simp
  · have hi := hmain rawOpts d t env r hr
    simp only [hi, Bool.not_true, Bool.false_eq_true, if_false]
    split <;> simp

/-- C2 (counterexample): searching `"email"` under `preferInputs` on a page
whose only match is `<button>email</button>` resolves (confidence 1) to an
element that fails the input-kind check, yet `smartFill` surfaces the
element-not-found error — the kind failure was silently retried away, and
no wrong-element-kind error reaches the caller. -/
theorem c2_counterexample :
    (findByText {} pageButtonEmail "email" true).map
      (fun r => (r.confidence, isInputElement r.element)) = some (1, false) ∧
    smartFill {} "email" "v" none
      (fun _ => { page := pageButtonEmail, duration := 0 }) true =
      Except.error (SmartError.notFound
        "Could not find input field with description: \"email\"") := by
  with_unfolding_all decide

/-- The result `findByText` produces for `"email"` (preferring inputs) on
`pageInputEmail` (the placeholder match). -/
def emailInputResult : LocatorResult :=
  { element := { tag := "input", attrs := [("placeholder", "email")] },
    confidence := 1, strategy := "placeholder", matchedText := "email",
    selector := "input" }

/-- Witness for C2 (amended) at a concrete resolution. -/
theorem c2_witness : isInputElement emailInputResult.element = true :=
  c2_amended.1 {} "email" none
    (fun _ => { page := pageInputEmail, duration := 0 }) emailInputResult
    (by with_unfolding_all decide)

/-- What one attempt of `findElementWithRetry` yields: nothing if the
per-attempt timer fires before resolution completes, otherwise the fresh
resolution's result when it clears the 0.5 threshold. -/
def retryAttemptOutcome (rawOpts : SmartLocatorOptions) (description : String)
    (cap : ℚ) (env : ℕ → Attempt) (i : ℕ) : Option LocatorResult :=
  if (env i).duration < cap then
    match findByText rawOpts (env i).page description false with
    | some r => if r.confidence > 1/2 then some r else none
    | none => none
  else none

/-- The retry loop is the first acceptable attempt outcome over the
attempt numbers it is given. -/
theorem findRetryGo_closed (rawOpts : SmartLocatorOptions)
    (description : String) (cap : ℚ) (env : ℕ → Attempt) :
    ∀ (n i : ℕ), findRetryGo rawOpts description cap env i n =
      ((List.range n).map (· + i)).findSome?
        (retryAttemptOutcome rawOpts description cap env) := by
  intro n
  induction n with
  | zero => intro i; rfl
  | succ n ih =>
    intro i
    rw [List.range_succ_eq_map, List.map_cons, List.map_map,
      List.findSome?_cons]
    have harr : ((· + i) ∘ fun x => x + 1) = (· + (i + 1)) := by
      funext k
      simp only [Function.comp_apply]
      omega
    rw [harr]
    simp only [Nat.zero_add]
    rw [findRetryGo]
    by_cases hdur : (env i).duration < cap
    · rw [if_pos hdur]
      rcases hf : findByText rawOpts (env i).page description false with _ | result
      · simp only [hf]
        rw [show retryAttemptOutcome rawOpts description cap env i = none by
          rw [retryAttemptOutcome, if_pos hdur, hf]]
        exact ih (i + 1)
      · simp only [hf]
        by_cases hc : result.confidence > 1/2
        · rw [if_pos hc]
          rw [show retryAttemptOutcome rawOpts description cap env i = some result by
            rw [retryAttemptOutcome, if_pos hdur, hf]
            show (if result.confidence > 1/2 then some result else none) = some result
            rw [if_pos hc]]
        · rw [if_neg hc]
          rw [show retryAttemptOutcome rawOpts description cap env i = none by
            rw [retryAttemptOutcome, if_pos hdur, hf]
            show (if result.confidence > 1/2 then some result else none) = none
            rw [if_neg hc]]
          exact ih (i + 1)
    · rw [if_neg hdur]
      rw [show retryAttemptOutcome rawOpts description cap env i = none by
        rw [retryAttemptOutcome, if_neg hdur]]
      exact ih (i + 1)

/-- C7 (amended): `findElementWithRetry` runs at most `maxRetries`
attempts, races each fresh resolution against the per-attempt timeout
`min(timeoutMs / maxRetries, 8000)` (the even split is capped at 8000 ms,
contrary to the claim's plain even split), accepts only results above
confidence 0.5, and returns `none` — not an error — once attempts are
exhausted. -/
theorem c7_amended (rawOpts : SmartLocatorOptions) (description : String)
    (timeout? : Option ℚ) (env : ℕ → Attempt) :
    findElementWithRetry rawOpts description timeout? env =
      ((List.range (jsOrN rawOpts.maxRetries 3)).map (· + 1)).findSome?
        (retryAttemptOutcome rawOpts description
          (perAttemptTimeoutCapped (jsOrQ timeout? (jsOrQ rawOpts.timeout 30000))
            (jsOrN rawOpts.maxRetries 3)) env) := by
  rw [findElementWithRetry]
  exact findRetryGo_closed rawOpts description _ env _ 1

/-- C7 (counterexample): with `timeout = 30000` and `maxRetries = 1`, the
claimed even split gives a 30000 ms attempt budget, but the code races
against `min(30000/1, 8000) = 8000 ms`: a resolution taking 9000 ms (which
would succeed at confidence 0.9 under the claimed budget, as the
even-split rendition of the claim shows) is timed out and the retrier
returns `none`. -/
theorem c7_counterexample :
    findElementWithRetry { maxRetries := some 1 } "foo" (some 30000)
      (fun _ => { page := pageDivFoo, duration := 9000 }) = none ∧
    (findElementWithRetryEvenSplit { maxRetries := some 1 } "foo" (some 30000)
      (fun _ => { page := pageDivFoo, duration := 9000 })).map
        LocatorResult.confidence = some (9/10) ∧
    perAttemptTimeoutCapped 30000 1 ≠ 30000 / 1 := by
  refine ⟨by with_unfolding_all decide, by with_unfolding_all decide, ?_⟩
  rw [perAttemptTimeoutCapped]
  norm_num

/-- The `smartWait` poll loop succeeds exactly when some admitted poll both
resolves an element on that poll's page and sees the state-wait succeed;
the remembered sub-error does not affect success. -/
theorem smartWaitGo_ok_iff (rawOpts : SmartLocatorOptions)
    (description state : String) :
    ∀ (iters : List WaitIter) (lastErr : Option String),
      smartWaitGo rawOpts description state lastErr iters = .ok () ↔
        ∃ it ∈ iters, (findByText rawOpts it.page description false).isSome ∧
          it.stateErr = none := by
  intro iters
  induction iters with
  | nil =>
    intro lastErr
    simp [smartWaitGo]
  | cons it rest ih =>
    intro lastErr
    rw [smartWaitGo]
    rcases hf : findByText rawOpts it.page description false with _ | r
    · simp only [List.mem_cons]
      constructor
      · intro h
        obtain ⟨x, hx, hP⟩ := (ih lastErr).mp h
        exact ⟨x, Or.inr hx, hP⟩
      · intro ⟨x, hx, hP⟩
        rcases hx with rfl | hx
        · rw [hf] at hP
          simp at hP
        · exact (ih lastErr).mpr ⟨x, hx, hP⟩
    · rcases hs : it.stateErr with _ | e
      · simp only [List.mem_cons]
        constructor
        · intro _
          exact ⟨it, Or.inl rfl, by rw [hf]; exact ⟨rfl, hs⟩⟩
        · intro _
          trivial
      · simp only [List.mem_cons]
        constructor
        · intro h
          obtain ⟨x, hx, hP⟩ := (ih (some e)).mp h
          exact ⟨x, Or.inr hx, hP⟩
        · intro ⟨x, hx, hP⟩
          rcases hx with rfl | hx
          · rw [hs] at hP
            simp at hP
          · exact (ih (some e)).mpr ⟨x, hx, hP⟩

/-- When no admitted poll succeeds, the loop throws the timeout error
carrying the last observed sub-error. -/
theorem smartWaitGo_error (rawOpts : SmartLocatorOptions)
    (description state : String) :
    ∀ (iters : List WaitIter) (lastErr : Option String),
      (¬ ∃ it ∈ iters, (findByText rawOpts it.page description false).isSome ∧
        it.stateErr = none) →
      smartWaitGo rawOpts description state lastErr iters =
        .error (smartWaitTimeoutMsg description state
          (iters.foldl (lastSubStep rawOpts description) lastErr)) := by
  intro iters
  induction iters with
  | nil => intro lastErr _; rfl
  | cons it rest ih =>
    intro lastErr hno
    rw [smartWaitGo, List.foldl_cons]
    rcases hf : findByText rawOpts it.page description false with _ | r
    · rw [show lastSubStep rawOpts description lastErr it = lastErr by
        rw [lastSubStep, hf]]
      refine ih lastErr ?_
      intro ⟨x, hx, hP⟩
      exact hno ⟨x, List.mem_cons_of_mem _ hx, hP⟩
    · rcases hs : it.stateErr with _ | e
      · exact absurd ⟨it, List.mem_cons_self _ _, by rw [hf]; exact ⟨rfl, hs⟩⟩ hno
      · rw [show lastSubStep rawOpts description lastErr it = some e by
          rw [lastSubStep, hf, hs]]
        refine ih (some e) ?_
        intro ⟨x, hx, hP⟩
        exact hno ⟨x, List.mem_cons_of_mem _ hx, hP⟩

/-- C6: each `smartWait` poll re-runs the full resolution against that
poll's current page (the loop's fate at poll `i` is a function of
`iters[i].page` through `findByText`, never of a handle from an earlier
poll); it returns normally exactly when some admitted poll finds an
element that reaches the requested state within its sub-wait, and
otherwise fails with the timeout error carrying the last observed
sub-error, if any. -/
theorem c6_smart_wait (rawOpts : SmartLocatorOptions)
    (description state : String) (iters : List WaitIter) :
    (smartWait rawOpts description state iters = .ok () ↔
      ∃ it ∈ iters, (findByText rawOpts it.page description false).isSome ∧
        it.stateErr = none) ∧
    ((¬ ∃ it ∈ iters, (findByText rawOpts it.page description false).isSome ∧
        it.stateErr = none) →
      smartWait rawOpts description state iters =
        .error (smartWaitTimeoutMsg description state
          (lastSubError rawOpts description iters))) :=
  ⟨smartWaitGo_ok_iff rawOpts description state iters none,
   fun h => smartWaitGo_error rawOpts description state iters none h⟩

/-- Witness for C6: an element absent at the first poll and reaching the
requested state at the second is detected. -/
theorem c6_witness :
    smartWait {} "foo" "visible"
      [{ page := pageButtonEmail, stateErr := some "boom" },
       { page := pageDivFoo, stateErr := none }] = .ok () :=
  (c6_smart_wait {} "foo" "visible"
    [{ page := pageButtonEmail, stateErr := some "boom" },
     { page := pageDivFoo, stateErr := none }]).1.mpr
    (by with_unfolding_all decide)

/-- The classic edit-distance recurrence never exceeds the longer length:
substituting along the shorter string and inserting the rest is always
available. -/
theorem levRec_le_max : ∀ (a b : List Char), levRec a b ≤ max a.length b.length
  | [], b => by simp [levRec]
  | x :: xs, [] => by simp [levRec]
  | x :: xs, y :: ys => by
    have h1 := levRec_le_max xs ys
    rw [levRec]
    split
    · simp only [List.length_cons]
      omega
    · have h2 := levRec_le_max (x :: xs) ys
      have h3 := levRec_le_max xs (y :: ys)
      simp only [List.length_cons] at h1 h2 h3 ⊢
      omega
termination_by a b => a.length + b.length

/-- A filtered fraction of a list is at most 1 (also when the list is
empty, by the junk value of division by zero). -/
theorem filterRatio_le_one {α : Type} (l : List α) (p : α → Bool) :
    ((l.filter p).length : ℚ) / (l.length : ℚ) ≤ 1 := by
  apply div_le_one_of_le
  · exact_mod_cast List.length_filter_le p l
  · positivity

/-- C5: `calculateTextSimilarity` always lands in [0,1], a string compared
with itself scores exactly 1.0 (the exact-match branch after identical
normalization), and the Levenshtein recurrence is bounded by the longer
length as the charSimilarity term requires. -/
theorem c5_similarity_bounds :
    (∀ (opts : LocOpts) (search target : String),
      0 ≤ calculateTextSimilarity opts search target ∧
      calculateTextSimilarity opts search target ≤ 1) ∧
    (∀ (opts : LocOpts) (s : String), calculateTextSimilarity opts s s = 1) ∧
    (∀ (a b : List Char), levRec a b ≤ max a.length b.length) := by
  refine ⟨?_, ?_, levRec_le_max⟩
  · intro opts search target
    simp only [calculateTextSimilarity]
    split_ifs with he hc
    · norm_num
    · norm_num
    · constructor
      · refine le_max_of_le_left ?_
        positivity
      · refine max_le ?_ ?_
        · refine mul_le_one ?_ (by norm_num) (by norm_num)
          exact filterRatio_le_one _ _
        · refine mul_le_one ?_ (by norm_num) (by norm_num)
          refine sub_le_self 1 ?_
          positivity
  · intro opts s
    simp [calculateTextSimilarity]

/-- Splitting at the first predicate failure: a block of satisfying
elements followed by a failing one is exactly where `takeWhile`/`dropWhile`
cut. -/
theorem takeWhile_middle {p : Char → Bool} :
    ∀ (w : List Char) (a : Char) (r : List Char),
      (∀ c ∈ w, p c = true) → p a = false →
      (w ++ a :: r).takeWhile p = w ∧ (w ++ a :: r).dropWhile p = a :: r := by
  intro w
  induction w with
  | nil =>
    intro a r _ ha
    simp [List.takeWhile_cons, List.dropWhile_cons, ha]
  | cons x xs ih =>
    intro a r hw ha
    have hx : p x = true := hw x (List.mem_cons_self _ _)
    have hrec := ih a r (fun c hc => hw c (List.mem_cons_of_mem _ hc)) ha
    simp only [List.cons_append, List.takeWhile_cons, List.dropWhile_cons, hx,
      if_true]
    exact ⟨by rw [hrec.1], by rw [hrec.2]⟩

/-- C9: `parseAriaRoleSyntax` succeeds exactly on strings of the anchored
shape `\w+ [ non-]-chars ]` — one or more word characters, a bracketed
non-empty bracket-free body, nothing after — returning the word block as
role and the trimmed body as description; everything else (including
unbalanced brackets) yields `none` (the parser is a total function, so it
never throws); and concretely `role[desc]` parses to `{role, desc}` while
`not-role-syntax` does not parse. -/
theorem c9_parse_role :
    (∀ (s : String) (r d : String),
      parseAriaRoleSyntax s = some { role := r, description := d } ↔
        ∃ (w inner : List Char),
          s.data = w ++ '[' :: (inner ++ [']']) ∧ w ≠ [] ∧
          (∀ c ∈ w, isWordChar c = true) ∧ inner ≠ [] ∧ ']' ∉ inner ∧
          r = String.mk w ∧ d = jsTrim (String.mk inner)) ∧
    parseAriaRoleSyntax "role[desc]" =
      some { role := "role", description := "desc" } ∧
    parseAriaRoleSyntax "not-role-syntax" = none := by
  refine ⟨?_, by with_unfolding_all decide, by with_unfolding_all decide⟩
  intro s r d
  constructor
  · intro h
    rw [parseAriaRoleSyntax] at h
    split at h
    · rename_i hcond
      split at h
      · rename_i tl hrest
        dsimp only at h
        split at h
        · rename_i hinner
          cases h
          refine ⟨s.data.takeWhile (fun c => c != '['),
            tl.takeWhile (fun c => c != ']'), ?_, hcond.1, ?_, hinner.1, ?_,
            rfl, rfl⟩
          · conv_lhs => rw [← List.takeWhile_append_dropWhile
              (p := fun c => c != '[') (l := s.data)]
            rw [hrest]
            have htl : tl.takeWhile (fun c => c != ']') ++ [']'] = tl := by
              conv_rhs => rw [← List.takeWhile_append_dropWhile
                (p := fun c => c != ']') (l := tl)]
              rw [hinner.2]
            conv_rhs => rw [htl]
          · intro c hc
            have hall := List.all_takeWhile (p := fun c => c != '[') (l := s.data)
            have := List.all_eq_true.mp hcond.2 c hc
            simpa using this
          · intro hmem
            have hall := List.all_takeWhile (p := fun c => c != ']') (l := tl)
            have := List.all_eq_true.mp hall _ hmem
            simp at this
        · cases h
      · cases h
    · cases h
  · intro ⟨w, inner, hs, hw, hword, hinner, hmem, hr, hd⟩
    have hw' : ∀ c ∈ w, (c != '[') = true := by
      intro c hc
      have h1 := hword c hc
      have h2 : isWordChar '[' = false := by decide
      simp only [bne_iff_ne, ne_eq]
      intro hceq
      rw [hceq, h2] at h1
      cases h1
    have hmem' : ∀ c ∈ inner, (c != ']') = true := by
      intro c hc
      simp only [bne_iff_ne, ne_eq]
      intro hceq
      exact hmem (hceq ▸ hc)
    have h1 := takeWhile_middle w '[' (inner ++ [']']) hw' (by decide)
    have h2 := takeWhile_middle inner ']' [] hmem' (by decide)
    rw [parseAriaRoleSyntax]
    rw [hs, h1.1, h1.2]
    rw [if_pos ⟨hw, List.all_eq_true.mpr hword⟩]
    have h2' : (inner ++ [']']).takeWhile (fun c => c != ']') = inner := h2.1
    have h2'' : (inner ++ [']']).dropWhile (fun c => c != ']') = [']'] := h2.2
    simp only [h2', h2'']
    rw [if_pos ⟨hinner, trivial⟩]
    rw [hr, hd]

/-- Witness for C9 applied at a concrete input with internal spacing:
`ab[ hi ]` parses to role `ab` and trimmed description `hi`. -/
theorem c9_witness :
    parseAriaRoleSyntax "ab[ hi ]" = some { role := "ab", description := "hi" } :=
  (c9_parse_role.1 "ab[ hi ]" "ab" "hi").mpr
    ⟨['a', 'b'], [' ', 'h', 'i', ' '], by with_unfolding_all decide,
     by decide, by decide, by decide, by decide, by decide,
     by with_unfolding_all decide⟩

/-! ## Normalizer idempotence: character-level lemmas -/

theorem charOfNat_toNat {n : ℕ} (h : n < 55296) : (Char.ofNat n).toNat = n := by
  have hv : n.isValidChar := Or.inl h
  rw [Char.ofNat, dif_pos hv]
  simp [Char.ofNatAux, Char.toNat, UInt32.toNat]

theorem jsCharLower_eq_of {c : Char} (h : 65 ≤ c.toNat ∧ c.toNat ≤ 90) :
    jsCharLower c = Char.ofNat (c.toNat + 32) := by
  rw [jsCharLower, if_pos h]

theorem jsCharLower_eq_of_not {c : Char}
    (h : ¬(65 ≤ c.toNat ∧ c.toNat ≤ 90)) : jsCharLower c = c := by
  rw [jsCharLower, if_neg h]

theorem jsCharLower_idem (c : Char) :
    jsCharLower (jsCharLower c) = jsCharLower c := by
  by_cases h : 65 ≤ c.toNat ∧ c.toNat ≤ 90
  · rw [jsCharLower_eq_of h]
    have ht : (Char.ofNat (c.toNat + 32)).toNat = c.toNat + 32 :=
      charOfNat_toNat (by omega)
    rw [jsCharLower_eq_of_not (by rw [ht]; omega)]
  · rw [jsCharLower_eq_of_not h, jsCharLower_eq_of_not h]

theorem jsIsSpace_jsCharLower (c : Char) :
    jsIsSpace (jsCharLower c) = jsIsSpace c := by
  by_cases h : 65 ≤ c.toNat ∧ c.toNat ≤ 90
  · rw [jsCharLower_eq_of h]
    have ht : (Char.ofNat (c.toNat + 32)).toNat = c.toNat + 32 :=
      charOfNat_toNat (by omega)
    rw [jsIsSpace, jsIsSpace, ht]
    rw [decide_eq_decide]
    omega
  · rw [jsCharLower_eq_of_not h]

theorem jsCharLower_space : jsCharLower ' ' = ' ' := by decide

/-! ## Normalizer idempotence: whitespace-collapse lemmas -/

theorem dropWhile_head_false {p : Char → Bool} :
    ∀ {l : List Char} {c : Char} {cs : List Char},
      l.dropWhile p = c :: cs → p c = false := by
  intro l
  induction l with
  | nil => intro c cs h; cases h
  | cons a as ih =>
    intro c cs h
    rw [List.dropWhile_cons] at h
    split at h
    · exact ih h
    · cases h
      rename_i hpa
      exact Bool.not_eq_true _ ▸ (by simpa using hpa)

theorem dropWhile_concat_last {p : Char → Bool} {c : Char} (hc : p c = false) :
    ∀ xs : List Char, ∃ ys, (xs ++ [c]).dropWhile p = ys ++ [c] := by
  intro xs
  induction xs with
  | nil => exact ⟨[], by simp [List.dropWhile_cons, hc]⟩
  | cons a as ih =>
    by_cases hpa : p a = true
    · obtain ⟨ys, hys⟩ := ih
      exact ⟨ys, by rw [List.cons_append, List.dropWhile_cons, if_pos hpa, hys]⟩
    · exact ⟨a :: as, by
        rw [List.cons_append, List.dropWhile_cons, if_neg hpa]⟩

theorem collapseWs_nil : collapseWs [] = [] := by simp [collapseWs]

theorem collapseWs_cons_pos {c : Char} (h : jsIsSpace c = true)
    (l : List Char) :
    collapseWs (c :: l) = ' ' :: collapseWs (l.dropWhile jsIsSpace) := by
  rw [collapseWs]
  simp [h]

theorem collapseWs_cons_neg {c : Char} (h : jsIsSpace c = false)
    (l : List Char) : collapseWs (c :: l) = c :: collapseWs l := by
  rw [collapseWs]
  simp [h]

theorem collapseWs_concat_last {c : Char} (hc : jsIsSpace c = false) :
    ∀ (n : ℕ) (xs : List Char), xs.length ≤ n →
      ∃ zs, collapseWs (xs ++ [c]) = zs ++ [c] := by
  intro n
  induction n with
  | zero =>
    intro xs hxs
    have : xs = [] := List.length_eq_zero.mp (Nat.le_zero.mp hxs)
    subst this
    exact ⟨[], by rw [List.nil_append, collapseWs_cons_neg hc, collapseWs_nil]⟩
  | succ n ih =>
    intro xs hxs
    match xs with
    | [] =>
      exact ⟨[], by rw [List.nil_append, collapseWs_cons_neg hc, collapseWs_nil]⟩
    | a :: as =>
      by_cases hpa : jsIsSpace a = true
      · rw [List.cons_append, collapseWs_cons_pos hpa]
        obtain ⟨ys, hys⟩ := dropWhile_concat_last hc as
        rw [hys]
        have hlen : ys.length ≤ n := by
          have h1 : (ys ++ [c]).length ≤ (as ++ [c]).length := by
            rw [← hys]
            exact (List.dropWhile_sublist _).length_le
          simp only [List.length_append, List.length_singleton,
            List.length_cons] at h1 hxs
          omega
        obtain ⟨zs, hzs⟩ := ih ys hlen
        exact ⟨' ' :: zs, by rw [hzs, List.cons_append]⟩
      · rw [List.cons_append,
          collapseWs_cons_neg (Bool.not_eq_true _ ▸ (by simpa using hpa))]
        have hlen : as.length ≤ n := by
          simp only [List.length_cons] at hxs
          omega
        obtain ⟨zs, hzs⟩ := ih as hlen
        exact ⟨a :: zs, by rw [hzs, List.cons_append]⟩

theorem collapseWs_idem_bounded :
    ∀ (n : ℕ) (xs : List Char), xs.length ≤ n →
      collapseWs (collapseWs xs) = collapseWs xs := by
  intro n
  induction n with
  | zero =>
    intro xs hxs
    have : xs = [] := List.length_eq_zero.mp (Nat.le_zero.mp hxs)
    subst this
    rw [collapseWs_nil, collapseWs_nil]
  | succ n ih =>
    intro xs hxs
    match xs with
    | [] => rw [collapseWs_nil, collapseWs_nil]
    | a :: as =>
      simp only [List.length_cons] at hxs
      by_cases hpa : jsIsSpace a = true
      · rw [collapseWs_cons_pos hpa]
        have hsp : jsIsSpace ' ' = true := by decide
        rw [collapseWs_cons_pos hsp]
        have hdw : (collapseWs (as.dropWhile jsIsSpace)).dropWhile jsIsSpace =
            collapseWs (as.dropWhile jsIsSpace) := by
          rcases hm : as.dropWhile jsIsSpace with _ | ⟨d, ds⟩
          · rw [collapseWs_nil]
            rfl
          · have hd : jsIsSpace d = false := dropWhile_head_false hm
            rw [collapseWs_cons_neg hd, List.dropWhile_cons, if_neg (by simp [hd])]
        rw [hdw]
        have hlen : (as.dropWhile jsIsSpace).length ≤ n := by
          have := (List.dropWhile_sublist (l := as) jsIsSpace).length_le
          omega
        rw [ih _ hlen]
      · have hpa' : jsIsSpace a = false := Bool.not_eq_true _ ▸ (by simpa using hpa)
        rw [collapseWs_cons_neg hpa', collapseWs_cons_neg hpa',
          ih as (by omega)]

theorem collapseWs_idem (xs : List Char) :
    collapseWs (collapseWs xs) = collapseWs xs :=
  collapseWs_idem_bounded xs.length xs le_rfl

/-! ## Normalizer idempotence: trim lemmas and assembly -/

theorem trimLeft_cons_neg {c : Char} (h : jsIsSpace c = false)
    (l : List Char) : trimLeft (c :: l) = c :: l := by
  rw [trimLeft, List.dropWhile_cons, if_neg (by simp [h])]

theorem trimRight_nil : trimRight [] = [] := rfl

theorem trimRight_concat_neg {c : Char} (h : jsIsSpace c = false)
    (zs : List Char) : trimRight (zs ++ [c]) = zs ++ [c] := by
  rw [trimRight]
  rw [show (zs ++ [c]).reverse = c :: zs.reverse by simp]
  rw [List.dropWhile_cons, if_neg (by simp [h])]
  simp

theorem trimRight_cons_neg {c : Char} (h : jsIsSpace c = false)
    (t : List Char) : ∃ u, trimRight (c :: t) = c :: u := by
  rw [trimRight]
  rw [show (c :: t).reverse = t.reverse ++ [c] by simp]
  obtain ⟨ys, hys⟩ := dropWhile_concat_last h t.reverse
  rw [hys]
  exact ⟨ys.reverse, by simp⟩

theorem trimRight_last (l : List Char) :
    trimRight l = [] ∨
    ∃ zs d, trimRight l = zs ++ [d] ∧ jsIsSpace d = false := by
  rcases hm : l.reverse.dropWhile jsIsSpace with _ | ⟨d, ds⟩
  · left
    rw [trimRight, hm]
    rfl
  · right
    exact ⟨ds.reverse, d, by rw [trimRight, hm]; simp,
      dropWhile_head_false hm⟩

/-- Trim-then-collapse is idempotent on character lists. -/
theorem tcList_idem (l : List Char) :
    collapseWs (trimRight (trimLeft (collapseWs (trimRight (trimLeft l))))) =
      collapseWs (trimRight (trimLeft l)) := by
  rcases hT : trimLeft l with _ | ⟨c, t⟩
  · rw [trimRight_nil, collapseWs_nil]
    rw [show trimLeft [] = [] from rfl, trimRight_nil]
    exact collapseWs_nil
  · have hc : jsIsSpace c = false :=
      dropWhile_head_false (show l.dropWhile jsIsSpace = c :: t from hT)
    obtain ⟨u, hu⟩ := trimRight_cons_neg hc t
    rw [hu, collapseWs_cons_neg hc]
    rcases trimRight_last (c :: t) with h0 | ⟨zs, d, hzd, hd⟩
    · rw [hu] at h0
      cases h0
    · rw [hu] at hzd
      have hX : collapseWs (c :: u) = c :: collapseWs u :=
        collapseWs_cons_neg hc u
      obtain ⟨ws, hws⟩ := collapseWs_concat_last hd zs.length zs le_rfl
      have hXeq : c :: collapseWs u = ws ++ [d] := by
        calc c :: collapseWs u = collapseWs (c :: u) := hX.symm
          _ = collapseWs (zs ++ [d]) := by rw [hzd]
          _ = ws ++ [d] := hws
      rw [trimLeft_cons_neg hc, hXeq, trimRight_concat_neg hd, ← hXeq, ← hX,
        collapseWs_idem]

theorem dropWhile_map_lower (l : List Char) :
    (l.map jsCharLower).dropWhile jsIsSpace =
      (l.dropWhile jsIsSpace).map jsCharLower := by
  rw [List.dropWhile_map]
  rw [show (jsIsSpace ∘ jsCharLower) = jsIsSpace from funext jsIsSpace_jsCharLower]

theorem trimLeft_map (l : List Char) :
    trimLeft (l.map jsCharLower) = (trimLeft l).map jsCharLower :=
  dropWhile_map_lower l

theorem trimRight_map (l : List Char) :
    trimRight (l.map jsCharLower) = (trimRight l).map jsCharLower := by
  rw [trimRight, trimRight]
  rw [show (l.map jsCharLower).reverse = l.reverse.map jsCharLower by
    rw [List.reverse_map]]
  rw [dropWhile_map_lower]
  rw [List.reverse_map]

theorem collapseWs_map_bounded :
    ∀ (n : ℕ) (xs : List Char), xs.length ≤ n →
      collapseWs (xs.map jsCharLower) = (collapseWs xs).map jsCharLower := by
  intro n
  induction n with
  | zero =>
    intro xs hxs
    have : xs = [] := List.length_eq_zero.mp (Nat.le_zero.mp hxs)
    subst this
    simp [collapseWs_nil]
  | succ n ih =>
    intro xs hxs
    match xs with
    | [] => simp [collapseWs_nil]
    | a :: as =>
      simp only [List.length_cons] at hxs
      by_cases hpa : jsIsSpace a = true
      · have hfa : jsIsSpace (jsCharLower a) = true := by
          rw [jsIsSpace_jsCharLower, hpa]
        rw [List.map_cons, collapseWs_cons_pos hfa, collapseWs_cons_pos hpa,
          dropWhile_map_lower]
        have hlen : (as.dropWhile jsIsSpace).length ≤ n := by
          have := (List.dropWhile_sublist (l := as) jsIsSpace).length_le
          omega
        rw [ih _ hlen, List.map_cons, jsCharLower_space]
      · have hpa' : jsIsSpace a = false := by
          simpa using hpa
        have hfa : jsIsSpace (jsCharLower a) = false := by
          rw [jsIsSpace_jsCharLower, hpa']
        rw [List.map_cons, collapseWs_cons_neg hfa, collapseWs_cons_neg hpa',
          ih as (by omega), List.map_cons]

theorem map_lower_idem (l : List Char) :
    (l.map jsCharLower).map jsCharLower = l.map jsCharLower := by
  rw [List.map_map]
  rw [show (jsCharLower ∘ jsCharLower) = jsCharLower from funext jsCharLower_idem]

theorem jsTrimCollapse_idem (s : String) :
    jsTrimCollapse (jsTrimCollapse s) = jsTrimCollapse s :=
  congrArg String.mk (tcList_idem s.data)

theorem jsToLower_idem (s : String) :
    jsToLower (jsToLower s) = jsToLower s :=
  congrArg String.mk (map_lower_idem s.data)

theorem jsTrimCollapse_toLower (s : String) :
    jsTrimCollapse (jsToLower s) = jsToLower (jsTrimCollapse s) :=
  congrArg String.mk (by
    rw [show (jsToLower s).data = s.data.map jsCharLower from rfl]
    rw [trimLeft_map, trimRight_map,
      collapseWs_map_bounded (trimRight (trimLeft s.data)).length _ le_rfl]
    rfl)

/-- C8: `normalizeText` is idempotent for every option set and every
string, and empty/null input yields the empty string (the function is
total, so it never throws). -/
theorem c8_normalize_idempotent :
    (∀ (opts : LocOpts) (x : String),
      normalizeText opts (normalizeText opts x) = normalizeText opts x) ∧
    (∀ opts : LocOpts, normalizeText opts "" = "") ∧
    (∀ opts : LocOpts, normalizeTextN opts none = "") := by
  refine ⟨?_, fun opts => rfl, fun opts => rfl⟩
  intro opts x
  by_cases hx : x = ""
  · subst hx
    rfl
  · rw [normalizeText]
    by_cases hy : normalizeText opts x = ""
    · rw [if_pos hy, hy]
    · rw [if_neg hy]
      cases ht : opts.trimWhitespace <;> cases hl : opts.ignoreCase <;>
        simp only [normalizeText, if_neg hx, ht, hl, Bool.false_eq_true,
          if_true, if_false]
      · rw [jsToLower_idem]
      · rw [jsTrimCollapse_idem]
      · rw [jsTrimCollapse_toLower, jsTrimCollapse_idem, jsToLower_idem]

end IFA
